import Mathlib

/-
Shallow embedding of the HbarSuite/users account-management module.

The embedding follows src/unnamed/part_001 (UserModelService, backed by a
Mongoose collection) and src/src/users.service.ts (UsersService, the pure
delegation layer).  The Mongo collection is modelled as a list of User
records in insertion order; findOne returns the first record matching the
filter.  Asynchronous resolve/reject is modelled with Except; the
fire-and-forget EventEmitter2 emissions are modelled as the list of events
emitted during a call.  bcrypt.hash(password, 10) takes its random salt as
an explicit parameter; moment().unix() is the explicit `now` parameter.

A Mongoose live document supports save/deleteOne, while the plain object
produced by toJSON() does not; the UserDoc.live flag records which of the
two a lookup resolved (the source resolves userDocument.toJSON() when its
toJSON parameter is true).  Calling a document method on undefined or on a
plain object is a JavaScript TypeError, modelled by Err.typeError.
-/

/-- Two-factor configuration (IAuth.ITwoFactor.IAuth); backupCodes is
optional so that a replacement config can omit it. -/
structure TwoFactorConfig where
  enabled : Bool
  secret : String
  verified : Bool
  backupCodes : Option (List String)
deriving DecidableEq, Repr

/-- The persisted user record (entities/user.entity.ts: User extends the
external Safe base class and adds the hashed password; the schema has
timestamps enabled).  banned is tri-state: false / null-or-absent / true. -/
structure User where
  id : Nat
  email : String
  username : String
  password : String
  role : String
  confirmed : Bool
  banned : Option Bool
  twoFactorAuth : Option TwoFactorConfig
  created_at : Nat
  updated_at : Nat
deriving DecidableEq, Repr

/-- A value resolved to a caller: the user data plus whether it is a live
Mongoose document (live = true) or a plain toJSON object (live = false). -/
structure UserDoc where
  user : User
  live : Bool
deriving DecidableEq, Repr

/-- The auth_users collection: records in insertion order plus the next
store-assigned id. -/
structure Store where
  users : List User
  nextId : Nat
deriving DecidableEq, Repr

/-- IAuth.ICredentials.IWeb2.IDto.ISignup. -/
structure Signup where
  email : String
  username : String
  password : String
deriving DecidableEq, Repr

/-- IAuth.ICredentials.IWeb2.IDto.ILogin; fields may be null/undefined. -/
structure Login where
  email : Option String
  username : Option String
  password : Option String
deriving DecidableEq, Repr

/-- Rejection reasons observable from the service layer. -/
inductive Err where
  /-- Mongoose validation failure on save (missing required field or
  duplicate email/username). -/
  | validationError
  /-- JavaScript TypeError: property access or method call on
  null/undefined, or a method missing from a plain object. -/
  | typeError
  /-- The explicit `user doesnt exist.` Error thrown by emailConfirmation
  and updateTwoFactorAuth. -/
  | userDoesntExist
deriving DecidableEq, Repr

/-- Domain events emitted through EventEmitter2. -/
inductive Event where
  | usersCreate (u : User)
  | usersPasswordUpdated (u : User)
  | usersConfirmed (u : User)
  | users2fa (u : User)
  | usersDelete (u : User)
deriving DecidableEq, Repr

/-- bcrypt.hash(password, 10) with the random salt made explicit: the
output is a formatted digest string, never the raw password itself. -/
def bcryptHash (salt : Nat) (password : String) : String :=
  "$2b$10$" ++ toString salt ++ "$" ++ password

/-- JavaScript truthiness of an optional string: null/undefined and the
empty string are falsy. -/
def optTruthy : Option String → Bool
  | none => false
  | some s => !(s == "")

/-- The `banned: {$in: [false, null]}` filter: matches banned = false,
banned = null and a missing banned field; excludes banned = true. -/
def isActive (u : User) : Bool :=
  match u.banned with
  | some true => false
  | _ => true

/-- The filter object built by UserModelService.find: ban exclusion, plus
username and email whenever they are (truthily) supplied; all supplied
fields must match (logical AND). -/
def matchesFind (login : Login) (u : User) : Bool :=
  isActive u
    && (if optTruthy login.username then u.username == login.username.getD "" else true)
    && (if optTruthy login.email then u.email == login.email.getD "" else true)

/-- Model.findOne: the first record of the collection satisfying the
filter, if any. -/
def findOneList : List User → (User → Bool) → Option User
  | [], _ => none
  | x :: xs, p => if p x then some x else findOneList xs p

/-- Modelled from the spec: the schema default for `confirmed` lives in
the external @hsuite/users-types Safe base class (not under src); per the
spec a new account is created with confirmed = false. -/
def defaultConfirmed : Bool := false

/-- Modelled from the spec: document.save() on a brand-new document; the
uniqueness constraints on email and username are enforced by the external
schema/indexes (not under src) and violating them fails with a
ValidationError.  On success the record is appended to the collection. -/
def saveNew (st : Store) (u : User) : Except Err Store :=
  if st.users.any (fun v => v.email == u.email || v.username == u.username) then
    Except.error Err.validationError
  else
    Except.ok { users := st.users ++ [u], nextId := st.nextId + 1 }

/-- document.save() on an already-persisted document: replaces the stored
record with the same id. -/
def saveExisting (st : Store) (u : User) : Store :=
  { st with users := st.users.map (fun v => if v.id == u.id then u else v) }

/-- document.deleteOne(): removes the record with the given id. -/
def removeById (st : Store) (id : Nat) : Store :=
  { st with users := st.users.filter (fun v => !(v.id == id)) }

/-- Outcome of a mutating operation: the resolved/rejected result paired
with the list of events emitted during the call. -/
abbrev OpResult := Except Err (Store × UserDoc) × List Event

/-- UserModelService.find (part_001 lines 298-324): findOne with the ban
filter plus truthy username/email; resolves the match (toJSON or live) or
resolves undefined (none) when nothing matches - it never rejects. -/
def UserModelService.find (st : Store) (user : Login) (toJSON : Bool) : Option UserDoc :=
  (findOneList st.users (matchesFind user)).map (fun u => { user := u, live := !toJSON })

/-- UserModelService.findById (lines 395-409): direct _id lookup, no ban
filter; resolves undefined (none) when absent. -/
def UserModelService.findById (st : Store) (id : Nat) (toJSON : Bool) : Option UserDoc :=
  (findOneList st.users (fun v => v.id == id)).map (fun u => { user := u, live := !toJSON })

/-- UserModelService.findAll (lines 341-350): unfiltered bulk read of live
documents. -/
def UserModelService.findAll (st : Store) : List UserDoc :=
  st.users.map (fun u => { user := u, live := true })

/-- The document UserModelService.create builds: the signup fields spread
over a new record, the bcrypt hash in place of the raw password, role
"user"; the schema supplies confirmed = false, assigns the id and sets
the timestamps. -/
def newUserRecord (st : Store) (user : Signup) (salt now : Nat) : User :=
  { id := st.nextId, email := user.email, username := user.username,
    password := bcryptHash salt user.password, role := "user", confirmed := defaultConfirmed,
    banned := none, twoFactorAuth := none, created_at := now, updated_at := now }

/-- UserModelService.create (lines 107-134): hashes the password with
bcrypt, builds the document from the signup fields plus role "user",
saves it, emits users/create, resolves the document. -/
def UserModelService.create (st : Store) (user : Signup) (salt now : Nat) (toJSON : Bool) : OpResult :=
  match saveNew st (newUserRecord st user salt now) with
  | Except.error e => (Except.error e, [])
  | Except.ok st2 =>
      (Except.ok (st2, { user := newUserRecord st user salt now, live := !toJSON }),
       [Event.usersCreate (newUserRecord st user salt now)])

/-- UserModelService.updatePassword (lines 159-188): hashes the new
password, resolves the account via find with email only (username and
password filters set to null) and toJSON = false, sets password and
updated_at, saves, emits users/password_updated.  When the email does not
resolve, find resolves null and the property assignment on null rejects
with a TypeError. -/
def UserModelService.updatePassword (st : Store) (userEmail newPassword : String) (salt now : Nat) (toJSON : Bool) : OpResult :=
  match UserModelService.find st { email := some userEmail, username := none, password := none } false with
  | none => (Except.error Err.typeError, [])
  | some doc =>
      let updated := { doc.user with password := bcryptHash salt newPassword, updated_at := now }
      let st2 := saveExisting st updated
      (Except.ok (st2, { user := updated, live := !toJSON }), [Event.usersPasswordUpdated updated])

/-- UserModelService.emailConfirmation (lines 208-229): findById, reject
with the explicit Error when absent, otherwise set confirmed = true
unconditionally, save, emit users/confirmed, resolve the toJSON view. -/
def UserModelService.emailConfirmation (st : Store) (userId : Nat) : OpResult :=
  match findOneList st.users (fun v => v.id == userId) with
  | none => (Except.error Err.userDoesntExist, [])
  | some u0 =>
      let updated := { u0 with confirmed := true }
      let st2 := saveExisting st updated
      (Except.ok (st2, { user := updated, live := false }), [Event.usersConfirmed updated])

/-- UserModelService.updateTwoFactorAuth (lines 254-276): findById, reject
with the explicit Error when absent, otherwise assign the whole
twoFactorAuth object, save, emit users/2fa, resolve the toJSON view. -/
def UserModelService.updateTwoFactorAuth (st : Store) (userId : Nat) (twoFactorAuth : TwoFactorConfig) : OpResult :=
  match findOneList st.users (fun v => v.id == userId) with
  | none => (Except.error Err.userDoesntExist, [])
  | some u0 =>
      let updated := { u0 with twoFactorAuth := some twoFactorAuth }
      let st2 := saveExisting st updated
      (Except.ok (st2, { user := updated, live := false }), [Event.users2fa updated])

/-- UserModelService.delete (lines 432-449): resolves the account via find
with the toJSON parameter left at its default (true), then calls
deleteOne() on the result.  The result is undefined (no match) or a plain
toJSON object, neither of which has a deleteOne method, so the call
rejects with a TypeError; the live branch below is the behaviour deleteOne
would have on a live document and is unreachable from this call site. -/
def UserModelService.delete (st : Store) (user : Signup) (toJSON : Bool) : OpResult :=
  match UserModelService.find st { email := some user.email, username := some user.username, password := some user.password } true with
  | none => (Except.error Err.typeError, [])
  | some doc =>
      if doc.live then
        (Except.ok (removeById st doc.user.id, { user := doc.user, live := !toJSON }),
         [Event.usersDelete doc.user])
      else
        (Except.error Err.typeError, [])

/-- The try/resolve/reject wrapper used by every UsersService method:
forwards the awaited outcome unchanged. -/
def tryResolve (x : Except Err (Store × UserDoc)) : Except Err (Store × UserDoc) :=
  match x with
  | Except.ok v => Except.ok v
  | Except.error e => Except.error e

/-- The same wrapper for the lookup operations that resolve an optional
document. -/
def tryResolveOpt (x : Option UserDoc) : Option UserDoc :=
  match x with
  | some d => some d
  | none => none

/-- UsersService.create (users.service.ts lines 88-97). -/
def UsersService.create (st : Store) (user : Signup) (salt now : Nat) : OpResult :=
  let r := UserModelService.create st user salt now true
  (tryResolve r.1, r.2)

/-- UsersService.findById (lines 118-127). -/
def UsersService.findById (st : Store) (userId : Nat) : Option UserDoc :=
  tryResolveOpt (UserModelService.findById st userId true)

/-- UsersService.find (lines 150-159). -/
def UsersService.find (st : Store) (user : Login) : Option UserDoc :=
  tryResolveOpt (UserModelService.find st user true)

/-- UsersService.updateTwoFactorAuth (lines 184-196). -/
def UsersService.updateTwoFactorAuth (st : Store) (userId : Nat) (twoFactorAuth : TwoFactorConfig) : OpResult :=
  let r := UserModelService.updateTwoFactorAuth st userId twoFactorAuth
  (tryResolve r.1, r.2)

/-- UsersService.updatePassword (lines 220-231). -/
def UsersService.updatePassword (st : Store) (userEmail newPassword : String) (salt now : Nat) : OpResult :=
  let r := UserModelService.updatePassword st userEmail newPassword salt now true
  (tryResolve r.1, r.2)

/-- UsersService.emailConfirmation (lines 252-263). -/
def UsersService.emailConfirmation (st : Store) (userId : Nat) : OpResult :=
  let r := UserModelService.emailConfirmation st userId
  (tryResolve r.1, r.2)

/-- UsersService.delete (lines 286-295). -/
def UsersService.delete (st : Store) (user : Signup) : OpResult :=
  let r := UserModelService.delete st user true
  (tryResolve r.1, r.2)

/-- A signup is fresh for a store when no stored record collides with its
email or username (the precondition for a valid registration). -/
def signupFresh (st : Store) (s : Signup) : Bool :=
  !(st.users.any (fun v => v.email == s.email || v.username == s.username))

/-- All stored ids are pairwise distinct (the store assigns unique ids). -/
def idsNodupB : List User → Bool
  | [] => true
  | x :: xs => xs.all (fun v => x.id != v.id) && idsNodupB xs

/-- The first non-banned record of the store, if any. -/
def firstActive (st : Store) : Option User :=
  findOneList st.users isActive

/- Sample data used by the concrete witnesses. -/

/-- Sample user record builder. -/
def mkUser (id : Nat) (email username password : String) (confirmed : Bool) (banned : Option Bool) : User :=
  { id := id, email := email, username := username, password := password, role := "user",
    confirmed := confirmed, banned := banned, twoFactorAuth := none,
    created_at := 0, updated_at := 0 }

/-- An active, confirmed sample account. -/
def aliceActive : User := mkUser 1 "a@x.com" "a" "h1" true none

/-- A banned sample account. -/
def bobBanned : User := mkUser 2 "b@x.com" "b" "h2" false (some true)

/-- A store holding one active and one banned account. -/
def storeAB : Store := { users := [aliceActive, bobBanned], nextId := 3 }

/-- The empty store. -/
def storeEmpty : Store := { users := [], nextId := 0 }

/-- A sample signup. -/
def sampleSignup : Signup := { email := "a@x.com", username := "a", password := "pw123456" }

/-- A sample two-factor config without backup codes. -/
def sampleCfg : TwoFactorConfig :=
  { enabled := true, secret := "TOTP", verified := false, backupCodes := none }

/-- The record UserModelService.create builds from sampleSignup on the
empty store with salt 0 at time 0. -/
def createdUser : User :=
  { id := 0, email := "a@x.com", username := "a", password := "$2b$10$0$pw123456",
    role := "user", confirmed := false, banned := none, twoFactorAuth := none,
    created_at := 0, updated_at := 0 }

/-- The store after that creation. -/
def createdStore : Store := { users := [createdUser], nextId := 1 }

/- Helper lemmas (shared; not tied to any single claim). -/

/-- A bcrypt digest is strictly longer than the raw password, hence never
equal to it. -/
theorem bcryptHash_ne_raw (salt : Nat) (p : String) : bcryptHash salt p ≠ p := by
  intro h
  have hl : (bcryptHash salt p).length = p.length := congrArg String.length h
  simp only [bcryptHash, String.length_append] at hl
  have h7 : ("$2b$10$" : String).length = 7 := rfl
  have h1 : ("$" : String).length = 1 := rfl
  rw [h7, h1] at hl
  omega

/-- An active record is not banned. -/
theorem isActive_banned {u : User} (h : isActive u = true) : u.banned ≠ some true := by
  intro hb
  simp [isActive, hb] at h

/-- A findOneList hit is a member of the list and satisfies the filter. -/
theorem findOneList_some {l : List User} {p : User → Bool} {a : User}
    (h : findOneList l p = some a) : a ∈ l ∧ p a = true := by
  induction l with
  | nil => simp [findOneList] at h
  | cons x xs ih =>
      by_cases hx : p x = true
      · simp [findOneList, hx] at h
        subst h
        exact ⟨List.mem_cons_self x xs, hx⟩
      · simp [findOneList, hx] at h
        rcases ih h with ⟨hm, hp⟩
        exact ⟨List.mem_cons_of_mem x hm, hp⟩

/-- When the filter selects nothing, findOneList returns none. -/
theorem findOneList_of_filter_nil (l : List User) (p : User → Bool)
    (h : l.filter p = []) : findOneList l p = none := by
  induction l with
  | nil => rfl
  | cons x xs ih =>
      simp only [List.filter_cons] at h
      by_cases hx : p x = true
      · rw [if_pos hx] at h
        simp at h
      · rw [if_neg hx] at h
        simp only [findOneList]
        rw [if_neg hx]
        exact ih h

/-- When the filter selects exactly one record, findOneList returns it. -/
theorem findOneList_of_filter_singleton (l : List User) (p : User → Bool) (u : User)
    (h : l.filter p = [u]) : findOneList l p = some u := by
  induction l with
  | nil => simp at h
  | cons x xs ih =>
      simp only [List.filter_cons] at h
      by_cases hx : p x = true
      · rw [if_pos hx] at h
        rcases List.cons_eq_cons.mp h with ⟨hxu, _⟩
        simp only [findOneList]
        rw [if_pos hx, hxu]
      · rw [if_neg hx] at h
        simp only [findOneList]
        rw [if_neg hx]
        exact ih h

/-- With pairwise-distinct ids, two members sharing an id are equal. -/
theorem idsNodupB_inj {l : List User} (hnd : idsNodupB l = true) :
    ∀ u, u ∈ l → ∀ v, v ∈ l → u.id = v.id → u = v := by
  induction l with
  | nil => intro u hu; cases hu
  | cons x xs ih =>
      simp only [idsNodupB, Bool.and_eq_true, List.all_eq_true, bne_iff_ne, ne_eq] at hnd
      intro u hu v hv hid
      rcases List.mem_cons.mp hu with hux | hux <;>
        rcases List.mem_cons.mp hv with hvx | hvx
      · rw [hux, hvx]
      · exact absurd (hux ▸ hid) (hnd.1 v hvx)
      · exact absurd (hvx ▸ hid.symm) (hnd.1 u hux)
      · exact ih hnd.2 u hux v hvx hid

/-- With pairwise-distinct ids, the id lookup of a member finds exactly
that member. -/
theorem findOneList_id_of_mem (l : List User) (u : User)
    (hnd : idsNodupB l = true) (hu : u ∈ l) :
    findOneList l (fun v => v.id == u.id) = some u := by
  induction l with
  | nil => cases hu
  | cons x xs ih =>
      simp only [idsNodupB, Bool.and_eq_true, List.all_eq_true, bne_iff_ne, ne_eq] at hnd
      rcases List.mem_cons.mp hu with hux | hux
      · subst hux
        simp [findOneList]
      · have hne : ¬(x.id == u.id) = true := by
          simp only [beq_iff_eq]
          exact hnd.1 u hux
        simp only [findOneList]
        rw [if_neg hne]
        exact ih hnd.2 hux

/-- Replacing the record with id u.id by u itself is a no-op when ids
determine records. -/
theorem map_update_eq_self (l : List User) (u : User)
    (h : ∀ v, v ∈ l → v.id = u.id → v = u) :
    l.map (fun v => if v.id == u.id then u else v) = l := by
  induction l with
  | nil => rfl
  | cons x xs ih =>
      simp only [List.map_cons]
      have hx : (if x.id == u.id then u else x) = x := by
        by_cases hbe : (x.id == u.id) = true
        · rw [if_pos hbe]
          exact (h x (List.mem_cons_self x xs) (by simpa [beq_iff_eq] using hbe)).symm
        · rw [if_neg hbe]
      rw [hx, ih (fun v hv hid => h v (List.mem_cons_of_mem x hv) hid)]

/-- The id lookup on a saveExisting-updated collection finds the updated
record, provided the update keeps the id of the record it replaces. -/
theorem findOneList_id_map_update (l : List User) (uid : Nat) (u0 unew : User)
    (hid : unew.id = u0.id)
    (h : findOneList l (fun v => v.id == uid) = some u0) :
    findOneList (l.map (fun v => if v.id == unew.id then unew else v))
      (fun v => v.id == uid) = some unew := by
  induction l with
  | nil => simp [findOneList] at h
  | cons x xs ih =>
      by_cases hx : (x.id == uid) = true
      · have hxu : x = u0 := by
          simp only [findOneList] at h
          rw [if_pos hx] at h
          exact Option.some.inj h
        have huid : u0.id = uid := by
          rw [← hxu]
          simpa [beq_iff_eq] using hx
        have hhead : (if x.id == unew.id then unew else x) = unew := by
          rw [if_pos]
          simp only [beq_iff_eq]
          rw [hxu, hid]
        simp only [List.map_cons, findOneList, hhead]
        rw [if_pos]
        simp only [beq_iff_eq]
        rw [hid, huid]
      · simp only [findOneList] at h
        rw [if_neg hx] at h
        have huid : u0.id = uid := by
          simpa [beq_iff_eq] using (findOneList_some h).2
        have hhead : (if x.id == unew.id then unew else x) = x := by
          rw [if_neg]
          simp only [beq_iff_eq, hid, huid]
          simpa [beq_iff_eq] using hx
        simp only [List.map_cons, findOneList, hhead]
        rw [if_neg hx]
        exact ih h

/-- Re-confirming an already-confirmed record leaves it unchanged. -/
theorem confirm_self (u : User) (h : u.confirmed = true) :
    ({ u with confirmed := true } : User) = u := by
  rw [← h]

/-- The try/resolve/reject wrapper is the identity on outcomes. -/
theorem tryResolve_eq (x : Except Err (Store × UserDoc)) : tryResolve x = x := by
  cases x <;> rfl

/-- The optional-document wrapper is the identity as well. -/
theorem tryResolveOpt_eq (x : Option UserDoc) : tryResolveOpt x = x := by
  cases x <;> rfl

/-- UserModelService.delete always rejects with a TypeError and emits
nothing: find is called with toJSON defaulted to true, so deleteOne is
invoked on undefined or on a plain JSON object. -/
theorem delete_always_rejects (st : Store) (user : Signup) (toJSON : Bool) :
    UserModelService.delete st user toJSON = (Except.error Err.typeError, []) := by
  unfold UserModelService.delete
  cases h : UserModelService.find st
      { email := some user.email, username := some user.username,
        password := some user.password } true with
  | none => rfl
  | some d =>
      have hl : d.live = false := by
        unfold UserModelService.find at h
        rcases Option.map_eq_some'.mp h with ⟨w, _, hw⟩
        rw [← hw]
        rfl
      simp [hl]

/- Claim theorems. -/

/-- Claim C1: for every valid (fresh) signup, create persists and returns
a record whose password field is the salted bcrypt hash of the raw
password and never the raw password itself, with role "user", confirmed
false and no two-factor config present. -/
theorem claim_C1 (st : Store) (s : Signup) (salt now : Nat)
    (hfresh : signupFresh st s = true) :
    ∃ st2 d, (UserModelService.create st s salt now true).1 = Except.ok (st2, d) ∧
      d.user.password = bcryptHash salt s.password ∧
      d.user.password ≠ s.password ∧
      d.user.role = "user" ∧
      d.user.confirmed = false ∧
      d.user.twoFactorAuth = none ∧
      d.user ∈ st2.users := by
  have hany : (st.users.any fun v =>
      v.email == (newUserRecord st s salt now).email
        || v.username == (newUserRecord st s salt now).username) = false := by
    rw [signupFresh, Bool.not_eq_true'] at hfresh
    simpa [newUserRecord] using hfresh
  have hsave : saveNew st (newUserRecord st s salt now)
      = Except.ok { users := st.users ++ [newUserRecord st s salt now], nextId := st.nextId + 1 } := by
    unfold saveNew
    rw [if_neg]
    simp [hany]
  refine ⟨{ users := st.users ++ [newUserRecord st s salt now], nextId := st.nextId + 1 },
    { user := newUserRecord st s salt now, live := !true }, ?_,
    rfl, bcryptHash_ne_raw salt s.password, rfl, rfl, rfl, ?_⟩
  · unfold UserModelService.create
    rw [hsave]
  · simp

/-- Claim C2: an account with banned = true is never returned by the
credential lookup find, while findById still returns it. -/
theorem claim_C2 (st : Store) (u : User) (hban : u.banned = some true) :
    (∀ login toJSON d, UserModelService.find st login toJSON = some d → d.user ≠ u) ∧
    (∀ toJSON, idsNodupB st.users = true → u ∈ st.users →
      UserModelService.findById st u.id toJSON = some { user := u, live := !toJSON }) := by
  constructor
  · intro login toJSON d hfind heq
    unfold UserModelService.find at hfind
    rcases Option.map_eq_some'.mp hfind with ⟨w, hw, hwd⟩
    have hm := (findOneList_some hw).2
    have hact : isActive w = true := by
      simp only [matchesFind, Bool.and_eq_true] at hm
      exact hm.1.1
    have hwu : w = u := by
      rw [← hwd] at heq
      exact heq
    exact isActive_banned hact (by rw [hwu]; exact hban)
  · intro toJSON hnd hu
    unfold UserModelService.findById
    rw [findOneList_id_of_mem st.users u hnd hu]
    rfl

/-- Claim C2 witness: in a store holding the banned account bobBanned,
findById still resolves it. -/
theorem claim_C2_witness :
    UserModelService.findById storeAB bobBanned.id true = some { user := bobBanned, live := false } :=
  (claim_C2 storeAB bobBanned rfl).2 true (by decide) (by decide)

/-- Claim C3 counterexample: with no matching account, find succeeds and
resolves undefined (none); it does not fail with a NotFoundError - the
claimed failure does not happen at this concrete input. -/
theorem claim_C3_counterexample :
    UserModelService.find storeAB
      { email := some "z@x.com", username := none, password := none } true = none := by
  decide

/-- Claim C3 (amended): if exactly one active account matches the AND
filter, find returns it; if no account matches, find succeeds with an
empty (undefined) result instead of failing. -/
theorem claim_C3_amended (st : Store) (login : Login) (toJSON : Bool) :
    (st.users.filter (matchesFind login) = [] → UserModelService.find st login toJSON = none) ∧
    (∀ u, st.users.filter (matchesFind login) = [u] →
      UserModelService.find st login toJSON = some { user := u, live := !toJSON }) := by
  constructor
  · intro h
    unfold UserModelService.find
    rw [findOneList_of_filter_nil st.users (matchesFind login) h]
    rfl
  · intro u h
    unfold UserModelService.find
    rw [findOneList_of_filter_singleton st.users (matchesFind login) u h]
    rfl

/-- Claim C3 witness: the amended statement at concrete inputs - an empty
store resolves none, and a store where exactly aliceActive matches
resolves aliceActive. -/
theorem claim_C3_witness :
    UserModelService.find storeEmpty
      { email := some "a@x.com", username := none, password := none } true = none ∧
    UserModelService.find storeAB
      { email := some "a@x.com", username := none, password := none } true
      = some { user := aliceActive, live := false } :=
  ⟨(claim_C3_amended storeEmpty
      { email := some "a@x.com", username := none, password := none } true).1 rfl,
   (claim_C3_amended storeAB
      { email := some "a@x.com", username := none, password := none } true).2
      aliceActive (by decide)⟩

/-- Claim C10: calling find with neither email nor username supplied does
not fail - the filter degenerates to the ban exclusion alone, and the call
resolves the first non-banned account of the store (none when every
account is banned). -/
theorem claim_C10 (st : Store) (pw : Option String) (toJSON : Bool) :
    UserModelService.find st { email := none, username := none, password := pw } toJSON
      = (firstActive st).map (fun u => { user := u, live := !toJSON }) := by
  have hp : matchesFind { email := none, username := none, password := pw } = isActive := by
    funext u
    simp [matchesFind, optTruthy]
  unfold UserModelService.find firstActive
  rw [hp]

/-- Claim C9: every public UsersService operation is extensionally equal
to the corresponding UserModelService operation - it forwards its
arguments unchanged and propagates the outcome and emitted events
verbatim. -/
theorem claim_C9 (st : Store) :
    (∀ s salt now, UsersService.create st s salt now = UserModelService.create st s salt now true) ∧
    (∀ userId, UsersService.findById st userId = UserModelService.findById st userId true) ∧
    (∀ login, UsersService.find st login = UserModelService.find st login true) ∧
    (∀ userId cfg, UsersService.updateTwoFactorAuth st userId cfg
        = UserModelService.updateTwoFactorAuth st userId cfg) ∧
    (∀ e np salt now, UsersService.updatePassword st e np salt now
        = UserModelService.updatePassword st e np salt now true) ∧
    (∀ userId, UsersService.emailConfirmation st userId = UserModelService.emailConfirmation st userId) ∧
    (∀ s, UsersService.delete st s = UserModelService.delete st s true) := by
  refine ⟨?_, ?_, ?_, ?_, ?_, ?_, ?_⟩ <;> intros <;>
    simp [UsersService.create, UsersService.findById, UsersService.find,
      UsersService.updateTwoFactorAuth, UsersService.updatePassword,
      UsersService.emailConfirmation, UsersService.delete,
      tryResolve_eq, tryResolveOpt_eq]

/-- Claim C4: updatePassword resolves the account through find with the
caller-supplied email only (username and password filters unset) plus the
ban exclusion; it rejects whenever that lookup resolves nothing (the
TypeError raised by assigning to null, the failure the spec taxonomy
labels NotFoundError), and on success the stored record carries the new
hash and a refreshed updated_at. -/
theorem claim_C4 (st : Store) (e np : String) (salt now : Nat) (toJSON : Bool) :
    (UserModelService.find st { email := some e, username := none, password := none } false = none →
      (UserModelService.updatePassword st e np salt now toJSON).1 = Except.error Err.typeError) ∧
    (∀ d, UserModelService.find st { email := some e, username := none, password := none } false = some d →
      ∃ st2, (UserModelService.updatePassword st e np salt now toJSON).1
          = Except.ok (st2,
              { user := { d.user with password := bcryptHash salt np, updated_at := now },
                live := !toJSON }) ∧
        ({ d.user with password := bcryptHash salt np, updated_at := now } : User) ∈ st2.users) := by
  constructor
  · intro h
    unfold UserModelService.updatePassword
    rw [h]
  · intro d h
    refine ⟨saveExisting st { d.user with password := bcryptHash salt np, updated_at := now },
      ?_, ?_⟩
    · unfold UserModelService.updatePassword
      rw [h]
    · have hdu : d.user ∈ st.users := by
        unfold UserModelService.find at h
        rcases Option.map_eq_some'.mp h with ⟨w, hw, hwd⟩
        rw [← hwd]
        exact (findOneList_some hw).1
      unfold saveExisting
      have hmem := List.mem_map_of_mem
        (fun v => if v.id == ({ d.user with password := bcryptHash salt np, updated_at := now } : User).id
          then ({ d.user with password := bcryptHash salt np, updated_at := now } : User) else v) hdu
      simpa using hmem

/-- Claim C4 witness: on the empty store the lookup fails and the call
rejects; on storeAB the password of aliceActive is rehashed and persisted
with updated_at refreshed. -/
theorem claim_C4_witness :
    ((UserModelService.updatePassword storeEmpty "a@x.com" "np" 0 7 true).1
        = Except.error Err.typeError) ∧
    (∃ st2, (UserModelService.updatePassword storeAB "a@x.com" "np" 0 7 true).1
        = Except.ok (st2,
            { user := { aliceActive with password := bcryptHash 0 "np", updated_at := 7 },
              live := false }) ∧
      ({ aliceActive with password := bcryptHash 0 "np", updated_at := 7 } : User) ∈ st2.users) :=
  ⟨(claim_C4 storeEmpty "a@x.com" "np" 0 7 true).1 rfl,
   (claim_C4 storeAB "a@x.com" "np" 0 7 true).2 { user := aliceActive, live := true } rfl⟩

/-- Claim C5: the delete operation never succeeds - it resolves the
account through find with toJSON defaulted to true, receives undefined or
a plain JSON object without a deleteOne method, and always rejects with a
TypeError, emitting nothing and removing nothing; yet the failing input
below holds a matching active account that find does resolve.  The spec
(and the JSDoc of delete itself) promises deletion of the record. -/
theorem claim_C5 :
    (∀ st user toJSON,
      UserModelService.delete st user toJSON = (Except.error Err.typeError, [])) ∧
    (∃ d, UserModelService.find storeAB
        { email := some "a@x.com", username := some "a", password := some "pw" } true = some d) :=
  ⟨delete_always_rejects, ⟨{ user := aliceActive, live := false }, by decide⟩⟩

/-- Claim C7: for every existing account, updateTwoFactorAuth replaces
the stored two-factor config wholesale: afterwards the stored record (and
the returned document) carries exactly the supplied config, with nothing
of the previous config surviving. -/
theorem claim_C7 (st : Store) (uid : Nat) (cfg : TwoFactorConfig) (u0 : User)
    (h : findOneList st.users (fun v => v.id == uid) = some u0) :
    ∃ st2,
      UserModelService.updateTwoFactorAuth st uid cfg
        = (Except.ok (st2, { user := { u0 with twoFactorAuth := some cfg }, live := false }),
           [Event.users2fa { u0 with twoFactorAuth := some cfg }]) ∧
      UserModelService.findById st2 uid true
        = some { user := { u0 with twoFactorAuth := some cfg }, live := false } := by
  refine ⟨saveExisting st { u0 with twoFactorAuth := some cfg }, ?_, ?_⟩
  · unfold UserModelService.updateTwoFactorAuth
    rw [h]
  · unfold UserModelService.findById saveExisting
    rw [findOneList_id_map_update st.users uid u0 { u0 with twoFactorAuth := some cfg } rfl h]
    rfl

/-- Claim C7 witness: replacing the (absent) config of aliceActive with
sampleCfg stores exactly sampleCfg. -/
theorem claim_C7_witness :
    ∃ st2,
      UserModelService.updateTwoFactorAuth storeAB 1 sampleCfg
        = (Except.ok (st2, { user := { aliceActive with twoFactorAuth := some sampleCfg }, live := false }),
           [Event.users2fa { aliceActive with twoFactorAuth := some sampleCfg }]) ∧
      UserModelService.findById st2 1 true
        = some { user := { aliceActive with twoFactorAuth := some sampleCfg }, live := false } :=
  claim_C7 storeAB 1 sampleCfg aliceActive (by decide)

/-- Claim C8: each of the five mutating operations emits, on success,
exactly one event of the matching kind carrying the post-mutation record
it resolves to the caller (the event exists exactly when the persistence
write succeeded - in this sequential embedding emission sits between the
write and the resolution), and a failed operation emits no event. -/
theorem claim_C8 :
    (∀ st s salt now t st2 d,
      (UserModelService.create st s salt now t).1 = Except.ok (st2, d) →
      (UserModelService.create st s salt now t).2 = [Event.usersCreate d.user]) ∧
    (∀ st s salt now t er,
      (UserModelService.create st s salt now t).1 = Except.error er →
      (UserModelService.create st s salt now t).2 = []) ∧
    (∀ st e np salt now t st2 d,
      (UserModelService.updatePassword st e np salt now t).1 = Except.ok (st2, d) →
      (UserModelService.updatePassword st e np salt now t).2 = [Event.usersPasswordUpdated d.user]) ∧
    (∀ st e np salt now t er,
      (UserModelService.updatePassword st e np salt now t).1 = Except.error er →
      (UserModelService.updatePassword st e np salt now t).2 = []) ∧
    (∀ st uid st2 d,
      (UserModelService.emailConfirmation st uid).1 = Except.ok (st2, d) →
      (UserModelService.emailConfirmation st uid).2 = [Event.usersConfirmed d.user]) ∧
    (∀ st uid er,
      (UserModelService.emailConfirmation st uid).1 = Except.error er →
      (UserModelService.emailConfirmation st uid).2 = []) ∧
    (∀ st uid cfg st2 d,
      (UserModelService.updateTwoFactorAuth st uid cfg).1 = Except.ok (st2, d) →
      (UserModelService.updateTwoFactorAuth st uid cfg).2 = [Event.users2fa d.user]) ∧
    (∀ st uid cfg er,
      (UserModelService.updateTwoFactorAuth st uid cfg).1 = Except.error er →
      (UserModelService.updateTwoFactorAuth st uid cfg).2 = []) ∧
    (∀ st s t st2 d,
      (UserModelService.delete st s t).1 = Except.ok (st2, d) →
      (UserModelService.delete st s t).2 = [Event.usersDelete d.user]) ∧
    (∀ st s t er,
      (UserModelService.delete st s t).1 = Except.error er →
      (UserModelService.delete st s t).2 = []) := by
  refine ⟨?_, ?_, ?_, ?_, ?_, ?_, ?_, ?_, ?_, ?_⟩
  · intro st s salt now t st2 d h
    unfold UserModelService.create at h ⊢
    cases hs : saveNew st (newUserRecord st s salt now) with
    | error e => rw [hs] at h; simp at h
    | ok st2x =>
        rw [hs] at h
        have h2 : Except.ok ((st2x,
            ({ user := newUserRecord st s salt now, live := !t } : UserDoc)) : Store × UserDoc)
            = Except.ok (st2, d) := h
        injection h2 with h3
        injection h3 with ha hb
        subst hb
        rfl
  · intro st s salt now t er h
    unfold UserModelService.create at h ⊢
    cases hs : saveNew st (newUserRecord st s salt now) with
    | error e => rfl
    | ok st2x => rw [hs] at h; simp at h
  · intro st e np salt now t st2 d h
    unfold UserModelService.updatePassword at h ⊢
    cases hf : UserModelService.find st { email := some e, username := none, password := none } false with
    | none => rw [hf] at h; simp at h
    | some doc =>
        rw [hf] at h
        have h2 : Except.ok ((saveExisting st
              { doc.user with password := bcryptHash salt np, updated_at := now },
            ({ user := { doc.user with password := bcryptHash salt np, updated_at := now },
               live := !t } : UserDoc)) : Store × UserDoc)
            = Except.ok (st2, d) := h
        injection h2 with h3
        injection h3 with ha hb
        subst hb
        rfl
  · intro st e np salt now t er h
    unfold UserModelService.updatePassword at h ⊢
    cases hf : UserModelService.find st { email := some e, username := none, password := none } false with
    | none => rfl
    | some doc => rw [hf] at h; simp at h
  · intro st uid st2 d h
    unfold UserModelService.emailConfirmation at h ⊢
    cases hf : findOneList st.users (fun v => v.id == uid) with
    | none => rw [hf] at h; simp at h
    | some u0 =>
        rw [hf] at h
        have h2 : Except.ok ((saveExisting st { u0 with confirmed := true },
            ({ user := { u0 with confirmed := true }, live := false } : UserDoc)) : Store × UserDoc)
            = Except.ok (st2, d) := h
        injection h2 with h3
        injection h3 with ha hb
        subst hb
        rfl
  · intro st uid er h
    unfold UserModelService.emailConfirmation at h ⊢
    cases hf : findOneList st.users (fun v => v.id == uid) with
    | none => rfl
    | some u0 => rw [hf] at h; simp at h
  · intro st uid cfg st2 d h
    unfold UserModelService.updateTwoFactorAuth at h ⊢
    cases hf : findOneList st.users (fun v => v.id == uid) with
    | none => rw [hf] at h; simp at h
    | some u0 =>
        rw [hf] at h
        have h2 : Except.ok ((saveExisting st { u0 with twoFactorAuth := some cfg },
            ({ user := { u0 with twoFactorAuth := some cfg }, live := false } : UserDoc)) : Store × UserDoc)
            = Except.ok (st2, d) := h
        injection h2 with h3
        injection h3 with ha hb
        subst hb
        rfl
  · intro st uid cfg er h
    unfold UserModelService.updateTwoFactorAuth at h ⊢
    cases hf : findOneList st.users (fun v => v.id == uid) with
    | none => rfl
    | some u0 => rw [hf] at h; simp at h
  · intro st s t st2 d h
    rw [delete_always_rejects st s t] at h
    simp at h
  · intro st s t er h
    rw [delete_always_rejects st s t]

/-- Claim C1 witness: registering sampleSignup on the empty store. -/
theorem claim_C1_witness :
    ∃ st2 d, (UserModelService.create storeEmpty sampleSignup 0 0 true).1 = Except.ok (st2, d) ∧
      d.user.password = bcryptHash 0 sampleSignup.password ∧
      d.user.password ≠ sampleSignup.password ∧
      d.user.role = "user" ∧
      d.user.confirmed = false ∧
      d.user.twoFactorAuth = none ∧
      d.user ∈ st2.users :=
  claim_C1 storeEmpty sampleSignup 0 0 rfl

/-- Claim C8 witness: the creation of sampleSignup on the empty store
emits exactly the users/create event carrying the created record. -/
theorem claim_C8_witness :
    (UserModelService.create storeEmpty sampleSignup 0 0 true).2 = [Event.usersCreate createdUser] :=
  claim_C8.1 storeEmpty sampleSignup 0 0 true createdStore { user := createdUser, live := false } rfl

/-- The image of a member under the saveExisting update function. -/
theorem mem_update_image (l : List User) (u w : User) (hu : u ∈ l) :
    (if (u.id == w.id) = true then w else u)
      ∈ l.map (fun v => if v.id == w.id then w else v) :=
  List.mem_map_of_mem _ hu

/-- Claim C6: confirming an already-confirmed existing account is an
idempotent no-op success that leaves confirmed = true, and no operation
of the module ever resets confirmed from true back to false - every
record surviving a successful create, updatePassword, emailConfirmation,
updateTwoFactorAuth or delete keeps confirmed = true. -/
theorem claim_C6 :
    (∀ st u, idsNodupB st.users = true → u ∈ st.users → u.confirmed = true →
      UserModelService.emailConfirmation st u.id
        = (Except.ok (st, { user := u, live := false }), [Event.usersConfirmed u])) ∧
    (∀ st s salt now t st2 d u, u ∈ st.users → u.confirmed = true →
      (UserModelService.create st s salt now t).1 = Except.ok (st2, d) →
      ∃ u2, u2 ∈ st2.users ∧ u2.id = u.id ∧ u2.confirmed = true) ∧
    (∀ st e np salt now t st2 d u, idsNodupB st.users = true →
      u ∈ st.users → u.confirmed = true →
      (UserModelService.updatePassword st e np salt now t).1 = Except.ok (st2, d) →
      ∃ u2, u2 ∈ st2.users ∧ u2.id = u.id ∧ u2.confirmed = true) ∧
    (∀ st uid cfg st2 d u, idsNodupB st.users = true →
      u ∈ st.users → u.confirmed = true →
      (UserModelService.updateTwoFactorAuth st uid cfg).1 = Except.ok (st2, d) →
      ∃ u2, u2 ∈ st2.users ∧ u2.id = u.id ∧ u2.confirmed = true) ∧
    (∀ st uid st2 d u, u ∈ st.users → u.confirmed = true →
      (UserModelService.emailConfirmation st uid).1 = Except.ok (st2, d) →
      ∃ u2, u2 ∈ st2.users ∧ u2.id = u.id ∧ u2.confirmed = true) ∧
    (∀ st s t st2 d u, u ∈ st.users → u.confirmed = true →
      (UserModelService.delete st s t).1 = Except.ok (st2, d) →
      ∃ u2, u2 ∈ st2.users ∧ u2.id = u.id ∧ u2.confirmed = true) := by
  refine ⟨?_, ?_, ?_, ?_, ?_, ?_⟩
  · intro st u hnd hu hconf
    have hfind := findOneList_id_of_mem st.users u hnd hu
    have hcs : ({ u with confirmed := true } : User) = u := confirm_self u hconf
    have hsave : saveExisting st u = st := by
      unfold saveExisting
      rw [map_update_eq_self st.users u (fun v hv hid => idsNodupB_inj hnd v hv u hu hid)]
    have hstep : UserModelService.emailConfirmation st u.id
        = (Except.ok (saveExisting st { u with confirmed := true },
            { user := { u with confirmed := true }, live := false }),
           [Event.usersConfirmed { u with confirmed := true }]) := by
      unfold UserModelService.emailConfirmation
      rw [hfind]
    rw [hstep, hcs, hsave]
  · intro st s salt now t st2 d u hu hconf h
    unfold UserModelService.create at h
    cases hs : saveNew st (newUserRecord st s salt now) with
    | error e => rw [hs] at h; simp at h
    | ok st2x =>
        rw [hs] at h
        have h2 : Except.ok ((st2x,
            ({ user := newUserRecord st s salt now, live := !t } : UserDoc)) : Store × UserDoc)
            = Except.ok (st2, d) := h
        injection h2 with h3
        injection h3 with ha hb
        subst ha
        unfold saveNew at hs
        by_cases hc : (st.users.any fun v =>
            v.email == (newUserRecord st s salt now).email
              || v.username == (newUserRecord st s salt now).username) = true
        · rw [if_pos hc] at hs
          simp at hs
        · rw [if_neg hc] at hs
          injection hs with h4
          refine ⟨u, ?_, rfl, hconf⟩
          rw [← h4]
          exact List.mem_append_left _ hu
  · intro st e np salt now t st2 d u hnd hu hconf h
    unfold UserModelService.updatePassword at h
    cases hf : UserModelService.find st { email := some e, username := none, password := none } false with
    | none => rw [hf] at h; simp at h
    | some doc =>
        rw [hf] at h
        have h2 : Except.ok ((saveExisting st
              { doc.user with password := bcryptHash salt np, updated_at := now },
            ({ user := { doc.user with password := bcryptHash salt np, updated_at := now },
               live := !t } : UserDoc)) : Store × UserDoc)
            = Except.ok (st2, d) := h
        injection h2 with h3
        injection h3 with ha hb
        subst ha
        have hw : doc.user ∈ st.users := by
          unfold UserModelService.find at hf
          rcases Option.map_eq_some'.mp hf with ⟨w, hwm, hwd⟩
          rw [← hwd]
          exact (findOneList_some hwm).1
        have hmem := mem_update_image st.users u
          { doc.user with password := bcryptHash salt np, updated_at := now } hu
        by_cases hbe : (u.id == ({ doc.user with password := bcryptHash salt np, updated_at := now } : User).id) = true
        · have hid : u.id = doc.user.id := by simpa [beq_iff_eq] using hbe
          have huq : u = doc.user := idsNodupB_inj hnd u hu doc.user hw hid
          rw [if_pos hbe] at hmem
          refine ⟨{ doc.user with password := bcryptHash salt np, updated_at := now }, ?_, ?_, ?_⟩
          · unfold saveExisting
            exact hmem
          · show doc.user.id = u.id
            exact hid.symm
          · show doc.user.confirmed = true
            rw [← huq]
            exact hconf
        · rw [if_neg hbe] at hmem
          refine ⟨u, ?_, rfl, hconf⟩
          unfold saveExisting
          exact hmem
  · intro st uid cfg st2 d u hnd hu hconf h
    unfold UserModelService.updateTwoFactorAuth at h
    cases hf : findOneList st.users (fun v => v.id == uid) with
    | none => rw [hf] at h; simp at h
    | some u0 =>
        rw [hf] at h
        have h2 : Except.ok ((saveExisting st { u0 with twoFactorAuth := some cfg },
            ({ user := { u0 with twoFactorAuth := some cfg }, live := false } : UserDoc)) : Store × UserDoc)
            = Except.ok (st2, d) := h
        injection h2 with h3
        injection h3 with ha hb
        subst ha
        have hw : u0 ∈ st.users := (findOneList_some hf).1
        have hmem := mem_update_image st.users u { u0 with twoFactorAuth := some cfg } hu
        by_cases hbe : (u.id == ({ u0 with twoFactorAuth := some cfg } : User).id) = true
        · have hid : u.id = u0.id := by simpa [beq_iff_eq] using hbe
          have huq : u = u0 := idsNodupB_inj hnd u hu u0 hw hid
          rw [if_pos hbe] at hmem
          refine ⟨{ u0 with twoFactorAuth := some cfg }, ?_, ?_, ?_⟩
          · unfold saveExisting
            exact hmem
          · show u0.id = u.id
            exact hid.symm
          · show u0.confirmed = true
            rw [← huq]
            exact hconf
        · rw [if_neg hbe] at hmem
          refine ⟨u, ?_, rfl, hconf⟩
          unfold saveExisting
          exact hmem
  · intro st uid st2 d u hu hconf h
    unfold UserModelService.emailConfirmation at h
    cases hf : findOneList st.users (fun v => v.id == uid) with
    | none => rw [hf] at h; simp at h
    | some u0 =>
        rw [hf] at h
        have h2 : Except.ok ((saveExisting st { u0 with confirmed := true },
            ({ user := { u0 with confirmed := true }, live := false } : UserDoc)) : Store × UserDoc)
            = Except.ok (st2, d) := h
        injection h2 with h3
        injection h3 with ha hb
        subst ha
        have hmem := mem_update_image st.users u { u0 with confirmed := true } hu
        by_cases hbe : (u.id == ({ u0 with confirmed := true } : User).id) = true
        · rw [if_pos hbe] at hmem
          refine ⟨{ u0 with confirmed := true }, ?_, ?_, rfl⟩
          · unfold saveExisting
            exact hmem
          · show u0.id = u.id
            exact (by simpa [beq_iff_eq] using hbe : u.id = u0.id).symm
        · rw [if_neg hbe] at hmem
          refine ⟨u, ?_, rfl, hconf⟩
          unfold saveExisting
          exact hmem
  · intro st s t st2 d u hu hconf h
    rw [delete_always_rejects st s t] at h
    simp at h

/-- Claim C6 witness: re-confirming the already-confirmed aliceActive in
storeAB succeeds, changes nothing and emits users/confirmed. -/
theorem claim_C6_witness :
    UserModelService.emailConfirmation storeAB aliceActive.id
      = (Except.ok (storeAB, { user := aliceActive, live := false }),
         [Event.usersConfirmed aliceActive]) :=
  claim_C6.1 storeAB aliceActive (by decide) (by decide) rfl
